import Mathlib

/-!
Verification development for the `code_data_factory` data pipeline
(`analyzer.py`, `scene1_pipeline.py`, `scene2_pipeline.py`, `postprocess.py`).

The Python sources are shallowly embedded: Python `str` values become Lean
`String`, JSON values become the inductive `Json` below, `json.loads` becomes
the executable recursive-descent parser `jsonParse`, and code that can raise a
runtime exception is modelled in the `Except PyErr` monad.  Scope notes:

* Python's `str.strip` / `str.split` treat a handful of further Unicode
  whitespace characters as whitespace; the model covers the ASCII whitespace
  set, which is what every input in scope (JSON text, generated records) uses.
* `str.splitlines` also recognises some rare Unicode line terminators; the
  model covers `\n`, `\r` and `\r\n`.  The chunker's inputs are `\n`-joined
  numbered lines, so this is the relevant set.
* `json.loads` / `json.dumps` are modelled for null, booleans, integer
  numerals, strings, arrays and objects.  Floating-point literals and the
  non-standard `NaN`/`Infinity` tokens are outside the model (no pipeline
  value in scope uses them); a float literal is treated as a decode failure.
-/

/-- ASCII whitespace, matching the characters Python's `str.strip()` and
`str.split()` treat as whitespace for the ASCII range. -/
def isWsChar (c : Char) : Bool :=
  c = ' ' || c = '\t' || c = '\n' || c = '\r' || c = '\x0b' || c = '\x0c'

/-- `str.strip()` on the character-list level. -/
def pyStripData (l : List Char) : List Char :=
  ((l.dropWhile isWsChar).reverse.dropWhile isWsChar).reverse

/-- Python `s.strip()` (no argument: strip whitespace from both ends). -/
def pyStrip (s : String) : String :=
  String.mk (pyStripData s.data)

/-- Python `s.lstrip()` (strip whitespace from the left end). -/
def pyLstrip (s : String) : String :=
  String.mk (s.data.dropWhile isWsChar)

/-- Python `s.strip(chars)`: remove every leading and trailing character that
belongs to `set`. -/
def pyStripChars (s : String) (set : List Char) : String :=
  String.mk
    (((s.data.dropWhile (fun c => set.contains c)).reverse.dropWhile
      (fun c => set.contains c)).reverse)

/-- Python `s.lstrip(chars)`: remove every leading character in `set`. -/
def pyLstripChars (s : String) (set : List Char) : String :=
  String.mk (s.data.dropWhile (fun c => set.contains c))

/-- Helper for `pyWords`: split a character list on whitespace runs. -/
def wordsAux : List Char → List Char → List String
  | [], acc => if acc.isEmpty then [] else [String.mk acc.reverse]
  | c :: rest, acc =>
    if isWsChar c then
      if acc.isEmpty then wordsAux rest []
      else String.mk acc.reverse :: wordsAux rest []
    else wordsAux rest (c :: acc)

/-- Python `s.split()` with no argument: whitespace-delimited tokens, with
runs of whitespace collapsed and ends ignored. -/
def pyWords (s : String) : List String :=
  wordsAux s.data []

/-- Join a list of strings with the newline separator, as
`"\n".join(lines)` does. -/
def joinNL : List String → String
  | [] => ""
  | [s] => s
  | s :: rest => s ++ "\n" ++ joinNL rest

/-- Helper for `pySplitlines`: scan the characters, cutting at `\n`, `\r`
and `\r\n`; `acc` holds the current line reversed.  A terminator at the very
end of the input closes the current line without opening a new one. -/
def splitlinesAux : List Char → List Char → List String
  | [], acc => [String.mk acc.reverse]
  | '\r' :: '\n' :: [], acc => [String.mk acc.reverse]
  | '\r' :: '\n' :: c :: rest, acc => String.mk acc.reverse :: splitlinesAux (c :: rest) []
  | '\n' :: [], acc => [String.mk acc.reverse]
  | '\n' :: c :: rest, acc => String.mk acc.reverse :: splitlinesAux (c :: rest) []
  | '\r' :: [], acc => [String.mk acc.reverse]
  | '\r' :: c :: rest, acc => String.mk acc.reverse :: splitlinesAux (c :: rest) []
  | c :: rest, acc => splitlinesAux rest (c :: acc)

/-- Python `s.splitlines()` restricted to the `\n` / `\r` / `\r\n`
terminators (see the header note): terminators are removed, a trailing
terminator does not produce a final empty line, and `"".splitlines() = []`. -/
def pySplitlines (s : String) : List String :=
  if s.data = [] then [] else splitlinesAux s.data []

/-!
## Chunker (`analyzer.py`, `split_into_chunks`, lines 50-70)

```python
def split_into_chunks(numbered_text: str, max_chars: int) -> List[str]:
    if len(numbered_text) <= max_chars:
        return [numbered_text]
    lines = numbered_text.splitlines()
    chunks, cur, cur_len = [], [], 0
    for line in lines:
        l = len(line) + 1
        if cur and cur_len + l > max_chars:
            chunks.append("\n".join(cur)); cur, cur_len = [], 0
        cur.append(line); cur_len += l
    if cur:
        chunks.append("\n".join(cur))
    return chunks
```
-/

/-- The accumulation loop of `split_into_chunks`: `cur` is the running
buffer of lines, `curLen` the running `cur_len` counter.  The Python loop's
"flush, reset, then append the line" is rendered as flushing and restarting
the recursion with buffer `[l]`. -/
def splitGo (maxChars : Nat) : List String → List String → Nat → List String
  | [], cur, _ => if cur = [] then [] else [joinNL cur]
  | l :: rest, cur, curLen =>
    if cur ≠ [] ∧ maxChars < curLen + (l.length + 1) then
      joinNL cur :: splitGo maxChars rest [l] (l.length + 1)
    else
      splitGo maxChars rest (cur ++ [l]) (curLen + (l.length + 1))

/-- `analyzer.split_into_chunks`. -/
def split_into_chunks (numbered_text : String) (max_chars : Nat) : List String :=
  if numbered_text.length ≤ max_chars then [numbered_text]
  else splitGo max_chars (pySplitlines numbered_text) [] 0

/-- A string free of the line terminators `\n` and `\r` — the shape of every
line of a numbered source text (`read_file_with_lines` joins
terminator-free lines with `"\n"`). -/
def noTerm (s : String) : Prop :=
  ∀ c ∈ s.data, c ≠ '\n' ∧ c ≠ '\r'

instance (s : String) : Decidable (noTerm s) := by
  unfold noTerm; infer_instance

/-!
## JSON model (`json.loads` / `json.dumps`)

JSON values as Python's `json` module materialises them: objects keep their
fields in source order; a duplicate key is resolved by `lookupLast` (the
last occurrence wins, as in Python dict construction).
-/

/-- A parsed JSON value (see the header scope note: numbers are modelled as
integers). -/
inductive Json where
  | null : Json
  | bool : Bool → Json
  | num : Int → Json
  | str : String → Json
  | arr : List Json → Json
  | obj : List (String × Json) → Json

/-- `d.get(k)` on a Python dict built from JSON object fields: the last
binding of a duplicated key wins. -/
def lookupLast (fields : List (String × Json)) (k : String) : Option Json :=
  fields.foldl (fun acc p => if p.1 = k then some p.2 else acc) none

/-- Python truthiness of a JSON value: `None`, `False`, `0`, `""`, `[]`
and `{}` are falsy, everything else truthy. -/
def pyTruthy : Json → Bool
  | .null => false
  | .bool b => b
  | .num n => n != 0
  | .str s => s != ""
  | .arr l => !l.isEmpty
  | .obj l => !l.isEmpty

/-- Skip JSON whitespace (the exact set `json.loads` skips between
tokens). -/
def skipWs : List Char → List Char
  | c :: rest =>
    if c = ' ' || c = '\t' || c = '\n' || c = '\r' then skipWs rest else c :: rest
  | [] => []

/-- Value of a hexadecimal digit character. -/
def hexVal (c : Char) : Option Nat :=
  if c.isDigit then some (c.toNat - 48)
  else if 'a' ≤ c ∧ c ≤ 'f' then some (c.toNat - 87)
  else if 'A' ≤ c ∧ c ≤ 'F' then some (c.toNat - 55)
  else none

/-- Decode the body of a JSON string literal (after the opening quote):
`acc` holds the decoded characters reversed.  Escapes `\" \\ \/ \b \f \n
\r \t \uXXXX` are decoded; an unescaped control character is a decode
error, as in strict-mode `json.loads`.  A `\uXXXX` escape denoting a lone
surrogate is outside the model (no claim input uses one). -/
def pStrAux : List Char → List Char → Option (String × List Char)
  | [], _ => none
  | '"' :: rest, acc => some (String.mk acc.reverse, rest)
  | '\\' :: 'u' :: h1 :: h2 :: h3 :: h4 :: rest, acc =>
    match hexVal h1, hexVal h2, hexVal h3, hexVal h4 with
    | some a, some b, some c, some d =>
      let n := a * 4096 + b * 256 + c * 16 + d
      if n < 0xd800 then pStrAux rest ((Char.ofNat n) :: acc) else none
    | _, _, _, _ => none
  | '\\' :: e :: rest, acc =>
    if e = '"' then pStrAux rest ('"' :: acc)
    else if e = '\\' then pStrAux rest ('\\' :: acc)
    else if e = '/' then pStrAux rest ('/' :: acc)
    else if e = 'b' then pStrAux rest ('\x08' :: acc)
    else if e = 'f' then pStrAux rest ('\x0c' :: acc)
    else if e = 'n' then pStrAux rest ('\n' :: acc)
    else if e = 'r' then pStrAux rest ('\r' :: acc)
    else if e = 't' then pStrAux rest ('\t' :: acc)
    else none
  | c :: rest, acc => if c.toNat < 0x20 then none else pStrAux rest (c :: acc)

/-- Consume a run of decimal digits, accumulating their value. -/
def pDigits : List Char → Nat → (Nat × List Char)
  | c :: rest, acc =>
    if c.isDigit then pDigits rest (acc * 10 + (c.toNat - 48)) else (acc, c :: rest)
  | [], acc => (acc, [])

/-- Parse an unsigned JSON integer numeral: `0`, or a nonzero digit
followed by digits.  A following `.`, `e` or `E` (a float literal) is a
decode failure in this model (header scope note). -/
def pNum (cs : List Char) : Option (Nat × List Char) :=
  match cs with
  | c :: rest =>
    if c = '0' then
      match rest with
      | d :: _ => if d = '.' || d = 'e' || d = 'E' then none else some (0, rest)
      | [] => some (0, [])
    else if c.isDigit then
      match pDigits rest (c.toNat - 48) with
      | (n, rest2) =>
        match rest2 with
        | d :: _ => if d = '.' || d = 'e' || d = 'E' then none else some (n, rest2)
        | [] => some (n, [])
    else none
  | [] => none

mutual

/-- Parse one JSON value (fuel-indexed recursive descent; the fuel is
spent on nesting only, and `jsonParse` supplies more fuel than any input
can consume). -/
def parseVal : Nat → List Char → Option (Json × List Char)
  | 0, _ => none
  | fuel + 1, cs =>
    match skipWs cs with
    | 'n' :: 'u' :: 'l' :: 'l' :: rest => some (.null, rest)
    | 't' :: 'r' :: 'u' :: 'e' :: rest => some (.bool true, rest)
    | 'f' :: 'a' :: 'l' :: 's' :: 'e' :: rest => some (.bool false, rest)
    | '"' :: rest =>
      match pStrAux rest [] with
      | some (s, rest2) => some (.str s, rest2)
      | none => none
    | '[' :: rest =>
      (match skipWs rest with
      | ']' :: rest2 => some (.arr [], rest2)
      | _ => parseElems fuel rest [])
    | '{' :: rest =>
      (match skipWs rest with
      | '}' :: rest2 => some (.obj [], rest2)
      | _ => parseMembers fuel rest [])
    | '-' :: rest =>
      match pNum rest with
      | some (n, rest2) => some (.num (-(n : Int)), rest2)
      | none => none
    | c :: rest =>
      if c.isDigit then
        match pNum (c :: rest) with
        | some (n, rest2) => some (.num (n : Int), rest2)
        | none => none
      else none
    | [] => none

/-- Parse the elements of a non-empty JSON array (after the opening
bracket); `acc` holds the elements parsed so far, reversed. -/
def parseElems : Nat → List Char → List Json → Option (Json × List Char)
  | 0, _, _ => none
  | fuel + 1, cs, acc =>
    match parseVal fuel cs with
    | none => none
    | some (v, rest) =>
      match skipWs rest with
      | ',' :: rest2 => parseElems fuel rest2 (v :: acc)
      | ']' :: rest2 => some (.arr (v :: acc).reverse, rest2)
      | _ => none

/-- Parse the members of a non-empty JSON object (after the opening
brace); `acc` holds the members parsed so far, reversed. -/
def parseMembers : Nat → List Char → List (String × Json) → Option (Json × List Char)
  | 0, _, _ => none
  | fuel + 1, cs, acc =>
    match skipWs cs with
    | '"' :: rest =>
      match pStrAux rest [] with
      | none => none
      | some (k, rest2) =>
        match skipWs rest2 with
        | ':' :: rest3 =>
          match parseVal fuel rest3 with
          | none => none
          | some (v, rest4) =>
            match skipWs rest4 with
            | ',' :: rest5 => parseMembers fuel rest5 ((k, v) :: acc)
            | '}' :: rest5 => some (.obj ((k, v) :: acc).reverse, rest5)
            | _ => none
        | _ => none
    | _ => none

end

/-- `json.loads`: parse a complete JSON document, requiring only
whitespace after the value; any failure (including the out-of-model float
literals, see the header note) is `none`, standing for
`json.JSONDecodeError`. -/
def jsonParse (s : String) : Option Json :=
  match parseVal (s.data.length + 1) s.data with
  | some (v, rest) => if skipWs rest = [] then some v else none
  | none => none

/-!
## Response extractor (`scene1_pipeline.py` lines 125-188,
`scene2_pipeline.py` lines 86-139)

`_strip_code_fence`, `parse_llm_response` and `parse_scene2_response`.
The two scene parsers differ only in the payload key (`"samples"` vs
`"plans"`) and the two scene-specific field names, so they are embedded as
instances of one parametrised definition.  Python exceptions other than
the caught `json.JSONDecodeError` are modelled in `Except PyErr`; the only
uncaught exception these functions can raise is the `AttributeError` from
calling `.strip()` on a truthy non-string field value (the `(x or
"").strip()` idiom).
-/

/-- The uncaught Python exceptions the embedded pipeline code can raise. -/
inductive PyErr where
  | attributeError : PyErr

deriving DecidableEq

/-- `_strip_code_fence` (identical in both scene modules):

```python
def _strip_code_fence(text: str) -> str:
    t = text.strip()
    if t.startswith("```"):
        t = t.strip("`")
        t = t.lstrip("json").lstrip()
    return t
```

`t.strip("`")` removes every leading and trailing backtick, and
`t.lstrip("json")` removes every leading character drawn from the set
`{'j','s','o','n'}`, not merely one literal `json` token. -/
def stripCodeFence (text : String) : String :=
  let t := pyStrip text
  if t.data.take 3 = ['`', '`', '`'] then
    pyLstrip (pyLstripChars (pyStripChars t ['`']) ['j', 's', 'o', 'n'])
  else t

/-- Index of the first occurrence of `c`, as Python `s.find(c)` (but
`none` instead of `-1`). -/
def firstIdx : List Char → Char → Option Nat
  | [], _ => none
  | x :: rest, c => if x = c then some 0 else (firstIdx rest c).map (· + 1)

/-- Index of the last occurrence of `c`, as Python `s.rfind(c)`. -/
def lastIdx (cs : List Char) (c : Char) : Option Nat :=
  (firstIdx cs.reverse c).map (fun i => cs.length - 1 - i)

/-- The optional second parse candidate: the substring from the first `{`
to the last `}` (inclusive), added only when both occur and the first `{`
is before the last `}`. -/
def braceSub (r : String) : List String :=
  match firstIdx r.data '{', lastIdx r.data '}' with
  | some s, some e =>
    if s < e then [String.mk ((r.data.drop s).take (e + 1 - s))] else []
  | _, _ => []

/-- The ordered parse-candidate list built by both scene parsers: the
fence-stripped text first, then (when present) the brace substring. -/
def candidates (raw : String) : List String :=
  let r := stripCodeFence raw
  r :: braceSub r

/-- Shape dispatch on one parsed candidate: a mapping with the payload
key holding a list yields that list; a bare list yields itself; anything
else makes the loop `continue` to the next candidate (`none` here). -/
def recordsOf (key : String) : Json → Option (List Json)
  | .obj fields =>
    match lookupLast fields key with
    | some (.arr l) => some l
    | _ => none
  | .arr l => some l
  | _ => none

/-- The candidate loop of both scene parsers up to the point where a
candidate decodes and passes shape dispatch: the first such candidate's
record list wins; if none qualifies the parsers return `[]`. -/
def firstRecords (key : String) : List String → Option (List Json)
  | [] => none
  | c :: rest =>
    match jsonParse c with
    | none => firstRecords key rest
    | some v =>
      match recordsOf key v with
      | none => firstRecords key rest
      | some l => some l

/-- `(s.get(k) or "").strip()`: a missing key or a falsy value yields
`""`; a truthy string is stripped; a truthy non-string raises
`AttributeError` (`.strip()` does not exist on it). -/
def orEmptyStrip : Option Json → Except PyErr String
  | none => .ok ""
  | some (.str s) => .ok (pyStrip s)
  | some v => if pyTruthy v then .error .attributeError else .ok ""

/-- One iteration of the cleaning loop shared by both scene parsers
(`k1` = primary field, `k3` = payload field, `mk` builds the scene's
record): `none` means the element is silently dropped. -/
def processTriple (k1 k3 : String) (mk : String → String → String → α)
    (s : Json) : Except PyErr (Option α) :=
  match s with
  | .obj fields =>
    match orEmptyStrip (lookupLast fields k1) with
    | .error e => .error e
    | .ok q =>
      match orEmptyStrip (lookupLast fields "thinking_trace") with
      | .error e => .error e
      | .ok t =>
        match orEmptyStrip (lookupLast fields k3) with
        | .error e => .error e
        | .ok a =>
          if q = "" ∨ a = "" ∨ (pyWords t).length < 5 then .ok none
          else .ok (some (mk q t a))
  | _ => .ok none

/-- The cleaning loop over the record list, in order; an exception aborts
the rest of the loop (and hence the batch). -/
def cleanTriples (k1 k3 : String) (mk : String → String → String → α) :
    List Json → Except PyErr (List α)
  | [] => .ok []
  | s :: rest =>
    match processTriple k1 k3 mk s with
    | .error e => .error e
    | .ok o =>
      match cleanTriples k1 k3 mk rest with
      | .error e => .error e
      | .ok rest2 => .ok (o.toList ++ rest2)

/-- The common body of `parse_llm_response` and `parse_scene2_response`:
strip the fence, try the candidates in order, dispatch on shape, clean.
A candidate that decodes and passes shape dispatch is final: its cleaned
list is returned even when empty.  If no candidate qualifies the result
is `[]`. -/
def parseResponse (key k1 k3 : String) (mk : String → String → String → α)
    (raw : String) : Except PyErr (List α) :=
  match firstRecords key (candidates raw) with
  | none => .ok []
  | some ss => cleanTriples k1 k3 mk ss

/-- One cleaned scene-1 record `{question, thinking_trace, answer}`. -/
structure QASample where
  question : String
  thinking_trace : String
  answer : String

deriving DecidableEq

/-- One cleaned scene-2 record
`{feature_title, thinking_trace, design_spec}`. -/
structure PlanSample where
  feature_title : String
  thinking_trace : String
  design_spec : String

deriving DecidableEq

/-- `scene1_pipeline.parse_llm_response`. -/
def parse_llm_response (raw : String) : Except PyErr (List QASample) :=
  parseResponse "samples" "question" "answer" QASample.mk raw

/-- `scene2_pipeline.parse_scene2_response`. -/
def parse_scene2_response (raw : String) : Except PyErr (List PlanSample) :=
  parseResponse "plans" "feature_title" "design_spec" PlanSample.mk raw

deriving instance DecidableEq for Except

/-- The pure acceptance view of one cleaning-loop iteration: `some r` when
the element survives, `none` when it is dropped or would raise. -/
def keepTriple (k1 k3 : String) (mk : String → String → String → α)
    (s : Json) : Option α :=
  ((processTriple k1 k3 mk s).toOption).bind id

/-- Is this JSON value a string? -/
def isStrJson : Json → Bool
  | .str _ => true
  | _ => false

/-- A field value that the `(x or "").strip()` idiom can digest without
raising: absent, falsy, or a string. -/
def safeVal : Option Json → Bool
  | none => true
  | some v => !pyTruthy v || isStrJson v

/-- An element whose three required field values are all `safeVal` (a
non-mapping element is trivially safe: it is dropped before any field
access). -/
def tripleSafe (k1 k3 : String) : Json → Bool
  | .obj fields =>
    safeVal (lookupLast fields k1) && safeVal (lookupLast fields "thinking_trace")
      && safeVal (lookupLast fields k3)
  | _ => true

/-- A response whose record array holds one element with a truthy
non-string `question` value (the integer `123`). -/
def c1BadRaw : String :=
  "\x7b\"samples\":[\x7b\"question\":123,\"thinking_trace\":\"a b c d e f\",\"answer\":\"A\"\x7d]\x7d"

/-- A well-formed response whose one record holds only falsy
(`null` / `0`) and string field values. -/
def c1SafeRaw : String :=
  "\x7b\"samples\": [\x7b\"question\": null, \"thinking_trace\": \"a b c d e\", \"answer\": 0\x7d]\x7d"

/-- A response whose record array holds a failing element (truthy
non-string `question` value `["x"]`) followed by a fully valid element. -/
def c2BadRaw : String :=
  "\x7b\"samples\":[\x7b\"question\":[\"x\"],\"thinking_trace\":\"a b c d e\",\"answer\":\"A\"\x7d,\x7b\"question\":\"Q\",\"thinking_trace\":\"a b c d e\",\"answer\":\"A\"\x7d]\x7d"

/-- A response with one non-mapping element, one element whose reasoning
is too short, and one fully valid element. -/
def c2MixedRaw : String :=
  "\x7b\"samples\": [\"x\", \x7b\"question\":\"Q\",\"thinking_trace\":\"too short\",\"answer\":\"A\"\x7d, \x7b\"question\":\"Q2\",\"thinking_trace\":\"a b c d e f\",\"answer\":\"A2\"\x7d]\x7d"

/-- The true fenced payload of `c10Fenced`: a bare record array whose
first character is `'n'`, one of the characters of the set
`{'j','s','o','n'}` that `lstrip("json")` removes. -/
def c10Payload : String :=
  "n[\x7b\"question\":\"Q\",\"thinking_trace\":\"a b c d e\",\"answer\":\"A\"\x7d]"

/-- `c10Payload` wrapped in a backtick fence with no language tag: the
payload starts immediately after the opening fence. -/
def c10Fenced : String :=
  "```n[\x7b\"question\":\"Q\",\"thinking_trace\":\"a b c d e\",\"answer\":\"A\"\x7d]```"

/-!
## `json.dumps` model and postprocessing (`postprocess.py`)
-/

/-- Lowercase hex digit. -/
def hexDigit (n : Nat) : Char :=
  if n < 10 then Char.ofNat (48 + n) else Char.ofNat (87 + n)

/-- JSON string escaping as `json.dumps(..., ensure_ascii=False)`
performs it: quote, backslash and control characters are escaped,
everything else passes through. -/
def escapeChar (c : Char) : List Char :=
  if c = '"' then ['\\', '"']
  else if c = '\\' then ['\\', '\\']
  else if c = '\n' then ['\\', 'n']
  else if c = '\r' then ['\\', 'r']
  else if c = '\t' then ['\\', 't']
  else if c = '\x08' then ['\\', 'b']
  else if c = '\x0c' then ['\\', 'f']
  else if c.toNat < 0x20 then
    ['\\', 'u', '0', '0', hexDigit (c.toNat / 16), hexDigit (c.toNat % 16)]
  else [c]

/-- A JSON string literal for `s`. -/
def jsonQuote (s : String) : String :=
  String.mk ('"' :: s.data.foldr (fun c acc => escapeChar c ++ acc) ['"'])

/-- `json.dumps(v, ensure_ascii=False)` with the default separators
`", "` and `": "`. -/
def dumps : Json → String
  | .null => "null"
  | .bool true => "true"
  | .bool false => "false"
  | .num n => toString n
  | .str s => jsonQuote s
  | .arr l =>
    "[" ++ String.intercalate ", " (l.attach.map (fun x => dumps x.1)) ++ "]"
  | .obj l =>
    "\x7b" ++ String.intercalate ", "
      (l.attach.map (fun x => jsonQuote x.1.1 ++ ": " ++ dumps x.1.2)) ++ "\x7d"
termination_by j => sizeOf j
decreasing_by
  · simp only [Json.arr.sizeOf_spec]
    have h1 := List.sizeOf_lt_of_mem x.2
    omega
  · simp only [Json.obj.sizeOf_spec]
    have h1 := List.sizeOf_lt_of_mem x.2
    have h2 : sizeOf (x.1).2 < sizeOf x.1 := by
      obtain ⟨⟨a, b⟩, hx⟩ := x
      simp only [Prod.mk.sizeOf_spec]
      omega
    omega

/-- `n` spaces. -/
def indentSpaces (n : Nat) : String :=
  String.mk (List.replicate n ' ')

/-- `json.dumps(v, ensure_ascii=False, indent=2)`: members are placed one
per line, indented two further spaces per nesting level (`ind` is the
indentation of the enclosing value); empty containers stay on one line;
the key separator is `": "` and the item separator a comma at end of
line. -/
def dumpsInd (ind : Nat) : Json → String
  | .null => "null"
  | .bool true => "true"
  | .bool false => "false"
  | .num n => toString n
  | .str s => jsonQuote s
  | .arr [] => "[]"
  | .arr l =>
    "[\n" ++ String.intercalate ",\n"
      (l.attach.map (fun x => indentSpaces (ind + 2) ++ dumpsInd (ind + 2) x.1))
      ++ "\n" ++ indentSpaces ind ++ "]"
  | .obj [] => "\x7b\x7d"
  | .obj l =>
    "\x7b\n" ++ String.intercalate ",\n"
      (l.attach.map (fun x =>
        indentSpaces (ind + 2) ++ jsonQuote x.1.1 ++ ": "
          ++ dumpsInd (ind + 2) x.1.2))
      ++ "\n" ++ indentSpaces ind ++ "\x7d"
termination_by j => sizeOf j
decreasing_by
  · simp only [Json.arr.sizeOf_spec]
    have h1 := List.sizeOf_lt_of_mem x.2
    omega
  · simp only [Json.obj.sizeOf_spec]
    have h1 := List.sizeOf_lt_of_mem x.2
    have h2 : sizeOf (x.1).2 < sizeOf x.1 := by
      obtain ⟨⟨a, b⟩, hx⟩ := x
      simp only [Prod.mk.sizeOf_spec]
      omega
    omega

/-- `postprocess._read_jsonl` on the line sequence of a file: strip each
line, skip blank lines, skip lines that fail to decode
(`json.JSONDecodeError` is caught and the loop continues). -/
def readJsonl (lines : List String) : List Json :=
  lines.filterMap (fun line =>
    let t := pyStrip line
    if t = "" then none else jsonParse t)

/-- `r.get(k, "").strip()`: an absent key yields `""`; a string value is
stripped; a present non-string value (even a falsy one such as `null`)
raises `AttributeError` from `.strip()`. -/
def pyGetStrDefaultStrip (fields : List (String × Json)) (k : String) :
    Except PyErr String :=
  match lookupLast fields k with
  | none => .ok ""
  | some (.str s) => .ok (pyStrip s)
  | some _ => .error .attributeError

/-- Python's `str()` applied to a value interpolated into an f-string,
restricted to the cases the pipeline produces: a string interpolates as
itself.  For a non-string value Python would use its `repr`-style
rendering; no pipeline record or claim exercises that case, and the model
approximates it by the JSON rendering. -/
def jsonToPyStr : Json → String
  | .str s => s
  | v => dumps v

/-- The scene-1 SFT record literal built by `postprocess_scene1` from the
stripped `question`/`code`/`thinking_trace`/`answer` strings and the raw
`file_path`/`class_name` values. -/
def mkScene1Sft (q code t a : String) (fpv cnv : Json) : Json :=
  .obj [("instruction", .str q), ("input", .str code),
    ("output", .str ("### 思考过程\n" ++ t ++ "\n\n### 回答\n" ++ a)),
    ("meta", .obj [("file_path", fpv), ("class_name", cnv)])]

/-- One iteration of the `postprocess_scene1` loop: read and strip the
four string fields (in source order), reject unless `question` and
`answer` are non-empty and the reasoning has at least 10 tokens, else
reshape.  A non-mapping record raises `AttributeError` (`r.get` does not
exist on it). -/
def s1Record (r : Json) : Except PyErr (Option Json) :=
  match r with
  | .obj fields =>
    match pyGetStrDefaultStrip fields "question" with
    | .error e => .error e
    | .ok q =>
      match pyGetStrDefaultStrip fields "answer" with
      | .error e => .error e
      | .ok a =>
        match pyGetStrDefaultStrip fields "thinking_trace" with
        | .error e => .error e
        | .ok t =>
          match pyGetStrDefaultStrip fields "code" with
          | .error e => .error e
          | .ok code =>
            if q = "" ∨ a = "" ∨ (pyWords t).length < 10 then .ok none
            else .ok (some (mkScene1Sft q code t a
              ((lookupLast fields "file_path").getD (.str ""))
              ((lookupLast fields "class_name").getD (.str ""))))
  | _ => .error .attributeError

/-- The scene-2 SFT record literal built by `postprocess_scene2`. -/
def mkScene2Sft (inst : String) (skeleton : Json) (t : String)
    (design : Json) : Json :=
  .obj [("instruction", .str inst),
    ("input", .str ("Project structure:\n" ++ jsonToPyStr skeleton)),
    ("output", .str ("### 架构分析\n" ++ t ++ "\n\n### 设计方案\n```json\n"
      ++ dumpsInd 0 design ++ "\n```")),
    ("meta", .obj [])]

/-- One iteration of the `postprocess_scene2` loop: read `instruction`
and `thinking_trace` (stripped), `design_output` (default `{}`) and
`project_skeleton` (default `""`), reject unless `instruction` is
non-empty, the reasoning has at least 10 tokens, and the design payload
is truthy; else reshape. -/
def s2Record (r : Json) : Except PyErr (Option Json) :=
  match r with
  | .obj fields =>
    match pyGetStrDefaultStrip fields "instruction" with
    | .error e => .error e
    | .ok inst =>
      match pyGetStrDefaultStrip fields "thinking_trace" with
      | .error e => .error e
      | .ok t =>
        let design := (lookupLast fields "design_output").getD (.obj [])
        let skeleton := (lookupLast fields "project_skeleton").getD (.str "")
        if inst = "" ∨ (pyWords t).length < 10 ∨ pyTruthy design = false then
          .ok none
        else .ok (some (mkScene2Sft inst skeleton t design))
  | _ => .error .attributeError

/-- The per-record loop of either postprocess function: records are
reshaped in order, dropped records leave no trace, and an exception
aborts the run. -/
def collectRecords (f : Json → Except PyErr (Option Json)) :
    List Json → Except PyErr (List Json)
  | [] => .ok []
  | r :: rest =>
    match f r with
    | .error e => .error e
    | .ok o =>
      match collectRecords f rest with
      | .error e => .error e
      | .ok rest2 => .ok (o.toList ++ rest2)

/-- `postprocess.postprocess_scene1` on the raw-log line sequence: the
list of SFT records it writes (one JSON object per line). -/
def postprocess_scene1 (lines : List String) : Except PyErr (List Json) :=
  collectRecords s1Record (readJsonl lines)

/-- `postprocess.postprocess_scene2` on the raw-log line sequence. -/
def postprocess_scene2 (lines : List String) : Except PyErr (List Json) :=
  collectRecords s2Record (readJsonl lines)

/-- `postprocess.merge_sft` on the line sequences of the two SFT files:
the lines written to the combined file. -/
def merge_sft (lines1 lines2 : List String) : List String :=
  (readJsonl lines1 ++ readJsonl lines2).map dumps

/-- The raw record written by `generate_scene1` (scene1_pipeline.py lines
236-243) for one parsed sample: provenance fields plus the sample's three
strings, with these exact keys in this order. -/
def qaRawRecord (fp cn code q t a : String) : Json :=
  .obj [("file_path", .str fp), ("class_name", .str cn), ("code", .str code),
    ("question", .str q), ("thinking_trace", .str t), ("answer", .str a)]

/-- The raw record written by `generate_scene2` (scene2_pipeline.py lines
175-181) for one parsed plan: the project-file lists plus the plan's
three strings, with these exact keys in this order. -/
def scene2RawRecord (files samples : List String)
    (title trace spec : String) : Json :=
  .obj [("project_files", .arr (files.map .str)),
    ("sample_files", .arr (samples.map .str)),
    ("feature_title", .str title), ("thinking_trace", .str trace),
    ("design_spec", .str spec)]

/-- Field lookup on a JSON object value. -/
def lookupJson (j : Json) (k : String) : Option Json :=
  match j with
  | .obj fields => lookupLast fields k
  | _ => none

/-- The string content of a field (empty for absent or non-string). -/
def getStrField (j : Json) (k : String) : String :=
  match lookupJson j k with
  | some (.str s) => s
  | _ => ""

/-- The canonical well-reasoned record: a 10-token reasoning string. -/
def tenTok : String := "w1 w2 w3 w4 w5 w6 w7 w8 w9 w10"

/-!
## Chunker lemmas
-/

theorem joinNL_cons (s : String) (rest : List String) (h : rest ≠ []) :
    joinNL (s :: rest) = s ++ "\n" ++ joinNL rest := by
  cases rest with
  | nil => exact absurd rfl h
  | cons t r => rfl

theorem joinNL_append (c d : List String) (hc : c ≠ []) (hd : d ≠ []) :
    joinNL (c ++ d) = joinNL c ++ "\n" ++ joinNL d := by
  induction c with
  | nil => exact absurd rfl hc
  | cons s c' ih =>
    cases c' with
    | nil => simpa using joinNL_cons s d hd
    | cons t r =>
      rw [List.cons_append, joinNL_cons s ((t :: r) ++ d) (by simp),
        ih (by simp), joinNL_cons s (t :: r) (by simp)]
      apply String.ext
      simp [String.data_append, List.append_assoc]

theorem joinNL_ne_empty (lines : List String) (hne : lines ≠ [])
    (h : ∀ l ∈ lines, l ≠ "") : joinNL lines ≠ "" := by
  cases lines with
  | nil => exact absurd rfl hne
  | cons s rest =>
    cases rest with
    | nil => exact h s (by simp)
    | cons t r =>
      rw [joinNL_cons s (t :: r) (by simp)]
      intro hemp
      have : (s ++ "\n" ++ joinNL (t :: r)).data = [] := by rw [hemp]
      simp [String.data_append] at this

theorem splitlinesAux_other (c : Char) (rest : List Char) (acc : List Char)
    (h1 : c ≠ '\n') (h2 : c ≠ '\r') :
    splitlinesAux (c :: rest) acc = splitlinesAux rest (c :: acc) := by
  cases rest with
  | nil => simp [splitlinesAux, h1, h2]
  | cons d r =>
    cases r with
    | nil => simp [splitlinesAux, h1, h2]
    | cons e r2 => simp [splitlinesAux, h1, h2]

theorem splitlinesAux_nl (rest : List Char) (acc : List Char) :
    splitlinesAux ('\n' :: rest) acc =
      String.mk acc.reverse :: (if rest = [] then [] else splitlinesAux rest []) := by
  cases rest with
  | nil => simp [splitlinesAux]
  | cons d r => simp [splitlinesAux]

theorem splitlinesAux_append (cs : List Char) (suf : List Char) (acc : List Char)
    (h : ∀ c ∈ cs, c ≠ '\n' ∧ c ≠ '\r') :
    splitlinesAux (cs ++ suf) acc = splitlinesAux suf (cs.reverse ++ acc) := by
  induction cs generalizing acc with
  | nil => simp
  | cons c cs' ih =>
    have hc := h c (by simp)
    rw [List.cons_append, splitlinesAux_other c (cs' ++ suf) acc hc.1 hc.2,
      ih (c :: acc) (fun x hx => h x (by simp [hx]))]
    simp

theorem pySplitlines_joinNL (lines : List String) (hne : lines ≠ [])
    (h : ∀ l ∈ lines, l ≠ "" ∧ noTerm l) :
    pySplitlines (joinNL lines) = lines := by
  induction lines with
  | nil => exact absurd rfl hne
  | cons l rest ih =>
    have hl := h l (by simp)
    have hldata : l.data ≠ [] := by
      intro hc
      exact hl.1 (by apply String.ext; simpa using hc)
    cases rest with
    | nil =>
      show pySplitlines l = [l]
      unfold pySplitlines
      rw [if_neg hldata]
      have : (l.data : List Char) = l.data ++ ([] : List Char) := by simp
      rw [this, splitlinesAux_append l.data [] [] (fun c hc => hl.2 c hc)]
      simp [splitlinesAux]
    | cons t r =>
      have hrest : joinNL (t :: r) ≠ "" :=
        joinNL_ne_empty (t :: r) (by simp) (fun x hx => (h x (by simp [hx])).1)
      have hrdata : (joinNL (t :: r)).data ≠ [] := by
        intro hc
        exact hrest (by apply String.ext; simpa using hc)
      rw [joinNL_cons l (t :: r) (by simp)]
      unfold pySplitlines
      have hdata : (l ++ "\n" ++ joinNL (t :: r)).data
          = l.data ++ ('\n' :: (joinNL (t :: r)).data) := by
        simp [String.data_append]
      rw [hdata, if_neg (by simp [hldata])]
      rw [splitlinesAux_append l.data ('\n' :: (joinNL (t :: r)).data) []
        (fun c hc => hl.2 c hc)]
      rw [splitlinesAux_nl]
      rw [if_neg hrdata]
      have ihr := ih (by simp) (fun x hx => h x (by simp [hx]))
      unfold pySplitlines at ihr
      rw [if_neg hrdata] at ihr
      rw [ihr]
      congr 1
      apply String.ext
      simp

theorem splitGo_ne_nil (m : Nat) (lines : List String) (cur : List String)
    (n : Nat) (hc : cur ≠ []) : splitGo m lines cur n ≠ [] := by
  induction lines generalizing cur n with
  | nil => simp [splitGo, hc]
  | cons l rest ih =>
    unfold splitGo
    by_cases h : cur ≠ [] ∧ m < n + (l.length + 1)
    · rw [if_pos h]; simp
    · rw [if_neg h]; exact ih (cur ++ [l]) (n + (l.length + 1)) (by simp)

theorem joinNL_singleton (s : String) : joinNL [s] = s := rfl

theorem joinNL_splitGo (m : Nat) (lines : List String) (cur : List String)
    (n : Nat) (hc : cur ≠ []) :
    joinNL (splitGo m lines cur n) = joinNL (cur ++ lines) := by
  induction lines generalizing cur n with
  | nil => simp [splitGo, hc, joinNL_singleton]
  | cons l rest ih =>
    unfold splitGo
    by_cases h : cur ≠ [] ∧ m < n + (l.length + 1)
    · rw [if_pos h]
      rw [joinNL_cons (joinNL cur) _ (splitGo_ne_nil m rest [l] (l.length + 1) (by simp))]
      rw [ih [l] (l.length + 1) (by simp)]
      rw [joinNL_append cur (l :: rest) hc (by simp)]
      simp
    · rw [if_neg h]
      rw [ih (cur ++ [l]) (n + (l.length + 1)) (by simp)]
      simp

theorem chunk_emit_bound (m : Nat) (cur : List String)
    (hcur : ∀ l ∈ cur, noTerm l) (hn : Nat) (heq : hn = (joinNL cur).length + 1)
    (hb : cur.length = 1 ∨ hn ≤ m) :
    (joinNL cur).length ≤ m ∨ (noTerm (joinNL cur) ∧ m < (joinNL cur).length) := by
  by_cases hle : (joinNL cur).length ≤ m
  · exact Or.inl hle
  · refine Or.inr ⟨?_, by omega⟩
    rcases hb with h1 | h2
    · rcases List.length_eq_one.mp h1 with ⟨l, rfl⟩
      exact hcur l (by simp)
    · exact absurd (by omega) hle

theorem splitGo_chunk_bound (m : Nat) (lines : List String) :
    ∀ (cur : List String) (n : Nat), (∀ s ∈ lines, noTerm s) →
    (∀ s ∈ cur, noTerm s) →
    ((cur = [] ∧ n = 0) ∨
      (cur ≠ [] ∧ n = (joinNL cur).length + 1 ∧ (cur.length = 1 ∨ n ≤ m))) →
    ∀ c ∈ splitGo m lines cur n, c.length ≤ m ∨ (noTerm c ∧ m < c.length) := by
  induction lines with
  | nil =>
    intro cur n _ hcur hinv c hcmem
    unfold splitGo at hcmem
    rcases hinv with ⟨hc, _⟩ | ⟨hc, hn, hb⟩
    · rw [if_pos hc] at hcmem; simp at hcmem
    · rw [if_neg hc] at hcmem
      simp at hcmem
      subst hcmem
      exact chunk_emit_bound m cur hcur n hn hb
  | cons hd tl ih =>
    intro cur n hlines hcur hinv c hcmem
    have hhd : noTerm hd := hlines hd (by simp)
    have htl : ∀ s ∈ tl, noTerm s := fun s hs => hlines s (by simp [hs])
    unfold splitGo at hcmem
    by_cases hcond : cur ≠ [] ∧ m < n + (hd.length + 1)
    · rw [if_pos hcond] at hcmem
      simp only [List.mem_cons] at hcmem
      rcases hcmem with rfl | hmem
      · rcases hinv with ⟨hc, _⟩ | ⟨_, hn, hb⟩
        · exact absurd hc hcond.1
        · exact chunk_emit_bound m cur hcur n hn hb
      · refine ih [hd] (hd.length + 1) htl
          (fun s hs => by simp at hs; subst hs; exact hhd) ?_ c hmem
        exact Or.inr ⟨by simp, by simp [joinNL_singleton], Or.inl (by simp)⟩
    · rw [if_neg hcond] at hcmem
      refine ih (cur ++ [hd]) (n + (hd.length + 1)) htl
        (fun s hs => by
          rcases List.mem_append.mp hs with h1 | h2
          · exact hcur s h1
          · simp at h2; subst h2; exact hhd) ?_ c hcmem
      by_cases hc : cur = []
      · subst hc
        rcases hinv with ⟨_, hn⟩ | ⟨hc, _, _⟩
        · subst hn
          exact Or.inr ⟨by simp, by simp [joinNL_singleton], Or.inl (by simp)⟩
        · exact absurd rfl hc
      · rcases hinv with ⟨hc2, _⟩ | ⟨_, hn, _⟩
        · exact absurd hc2 hc
        · have hle : n + (hd.length + 1) ≤ m := by
            rcases not_and_or.mp hcond with h1 | h2
            · exact absurd hc (by simpa using h1)
            · omega
          refine Or.inr ⟨by simp, ?_, Or.inr hle⟩
          rw [joinNL_append cur [hd] hc (by simp), joinNL_singleton]
          rw [String.length_append, String.length_append]
          have hnl : ("\n" : String).length = 1 := rfl
          omega

/-- C3: for every numbered source text `T` (a newline-join of non-empty,
terminator-free numbered lines, the shape produced by
`read_file_with_lines`) and every budget `B > 0`, joining the chunks
returned by `split_into_chunks T B` with the newline separator reproduces
`T` exactly — no line is dropped, duplicated, reordered or truncated. -/
theorem c3_chunk_reassembly (lines : List String) (B : Nat) (hB : 0 < B)
    (h : ∀ l ∈ lines, l ≠ "" ∧ noTerm l) :
    joinNL (split_into_chunks (joinNL lines) B) = joinNL lines := by
  unfold split_into_chunks
  by_cases hlen : (joinNL lines).length ≤ B
  · rw [if_pos hlen]; exact joinNL_singleton _
  · rw [if_neg hlen]
    have hne : lines ≠ [] := by
      intro hc; subst hc
      exact hlen (by simp [joinNL, String.length])
    rw [pySplitlines_joinNL lines hne h]
    cases lines with
    | nil => exact absurd rfl hne
    | cons hd tl =>
      show joinNL (splitGo B (hd :: tl) [] 0) = _
      unfold splitGo
      rw [if_neg (by simp)]
      have := joinNL_splitGo B tl [hd] (0 + (hd.length + 1)) (by simp)
      simpa using this

/-- Witness for `c3_chunk_reassembly` at a concrete numbered text and
budget. -/
theorem c3_chunk_reassembly_witness :
    0 < 7 ∧ (∀ l ∈ ["1 | ab", "2 | cd"], l ≠ "" ∧ noTerm l) ∧
      joinNL (split_into_chunks (joinNL ["1 | ab", "2 | cd"]) 7)
        = joinNL ["1 | ab", "2 | cd"] :=
  ⟨by decide, by decide,
    c3_chunk_reassembly ["1 | ab", "2 | cd"] 7 (by decide) (by decide)⟩

/-- C4: for every numbered source text and budget `B > 0`, every chunk
returned by `split_into_chunks` has serialized length `≤ B`, except a chunk
consisting of a single line (a chunk containing no newline) whose own
length exceeds `B`; no chunk is dropped, truncated or split mid-line
(that is `c3_chunk_reassembly`). -/
theorem c4_chunk_size_bound (lines : List String) (B : Nat) (hB : 0 < B)
    (h : ∀ l ∈ lines, l ≠ "" ∧ noTerm l) :
    ∀ c ∈ split_into_chunks (joinNL lines) B,
      c.length ≤ B ∨ (noTerm c ∧ B < c.length) := by
  intro c hc
  unfold split_into_chunks at hc
  by_cases hlen : (joinNL lines).length ≤ B
  · rw [if_pos hlen] at hc
    simp at hc
    subst hc
    exact Or.inl hlen
  · rw [if_neg hlen] at hc
    have hne : lines ≠ [] := by
      intro hceq; subst hceq
      exact hlen (by simp [joinNL, String.length])
    rw [pySplitlines_joinNL lines hne h] at hc
    exact splitGo_chunk_bound B lines [] 0 (fun s hs => (h s hs).2)
      (by simp) (Or.inl ⟨rfl, rfl⟩) c hc

/-- Witness for `c4_chunk_size_bound`: a two-line text split with budget 3
produces two oversized single-line chunks. -/
theorem c4_chunk_size_bound_witness :
    0 < 3 ∧ (∀ l ∈ ["1 | ab", "2 | cd"], l ≠ "" ∧ noTerm l) ∧
      ∀ c ∈ split_into_chunks (joinNL ["1 | ab", "2 | cd"]) 3,
        c.length ≤ 3 ∨ (noTerm c ∧ 3 < c.length) :=
  ⟨by decide, by decide,
    c4_chunk_size_bound ["1 | ab", "2 | cd"] 3 (by decide) (by decide)⟩

/-!
## Extractor lemmas
-/

theorem pyStripData_eq_rdrop (l : List Char) :
    pyStripData l = List.rdropWhile isWsChar (List.dropWhile isWsChar l) := rfl

theorem dropWhile_length_le {p : Char → Bool} (l : List Char) :
    (l.dropWhile p).length ≤ l.length := by
  induction l with
  | nil => simp
  | cons a t ih =>
    rw [List.dropWhile_cons]
    split
    · exact le_trans ih (by simp)
    · simp

theorem dropWhile_eq_self_of_prefixed {p : Char → Bool} (R A t : List Char)
    (hRA : R ++ t = A) (hA : List.dropWhile p A = A) :
    List.dropWhile p R = R := by
  cases R with
  | nil => simp
  | cons c cr =>
    have hA2 : A = c :: (cr ++ t) := by rw [← hRA]; rfl
    rw [hA2] at hA
    by_cases hc : p c
    · rw [List.dropWhile_cons_of_pos hc] at hA
      have hle := dropWhile_length_le (p := p) (cr ++ t)
      rw [hA] at hle
      simp at hle
    · exact List.dropWhile_cons_of_neg hc

theorem pyStripData_idem (l : List Char) :
    pyStripData (pyStripData l) = pyStripData l := by
  have key : List.dropWhile isWsChar (pyStripData l) = pyStripData l := by
    obtain ⟨t, ht⟩ := List.rdropWhile_prefix isWsChar (List.dropWhile isWsChar l)
    exact dropWhile_eq_self_of_prefixed _ _ t ht (List.dropWhile_idempotent isWsChar l)
  calc pyStripData (pyStripData l)
      = List.rdropWhile isWsChar (List.dropWhile isWsChar (pyStripData l)) := rfl
    _ = List.rdropWhile isWsChar (pyStripData l) := by rw [key]
    _ = pyStripData l := by
        rw [pyStripData_eq_rdrop]
        exact List.rdropWhile_idempotent isWsChar _

theorem pyStrip_idem (s : String) : pyStrip (pyStrip s) = pyStrip s := by
  apply String.ext
  exact pyStripData_idem s.data

theorem orEmptyStrip_ok_trimmed (o : Option Json) (s : String)
    (h : orEmptyStrip o = .ok s) : s = pyStrip s := by
  match o with
  | none =>
    simp only [orEmptyStrip] at h
    cases h
    rfl
  | some (.str s0) =>
    simp only [orEmptyStrip] at h
    cases h
    exact (pyStrip_idem s0).symm
  | some .null | some (.bool _) | some (.num _) | some (.arr _) | some (.obj _) =>
    simp only [orEmptyStrip] at h
    split at h
    · cases h
    · cases h; rfl

theorem processTriple_ok_some {α} (k1 k3 : String)
    (mk : String → String → String → α) (s : Json) (r : α)
    (h : processTriple k1 k3 mk s = .ok (some r)) :
    ∃ q t a, r = mk q t a ∧ q ≠ "" ∧ a ≠ "" ∧ 5 ≤ (pyWords t).length ∧
      q = pyStrip q ∧ t = pyStrip t ∧ a = pyStrip a := by
  match s with
  | .null | .bool _ | .num _ | .str _ | .arr _ =>
    simp [processTriple] at h
  | .obj fields =>
    simp only [processTriple] at h
    cases hq : orEmptyStrip (lookupLast fields k1) with
    | error e => rw [hq] at h; simp at h
    | ok q =>
      rw [hq] at h
      cases ht : orEmptyStrip (lookupLast fields "thinking_trace") with
      | error e => rw [ht] at h; simp at h
      | ok t =>
        rw [ht] at h
        cases ha : orEmptyStrip (lookupLast fields k3) with
        | error e => rw [ha] at h; simp at h
        | ok a =>
          rw [ha] at h
          dsimp only at h
          by_cases hcond : q = "" ∨ a = "" ∨ (pyWords t).length < 5
          · rw [if_pos hcond] at h; simp at h
          · rw [if_neg hcond] at h
            have hA : q ≠ "" := fun hh => hcond (Or.inl hh)
            have hB : a ≠ "" := fun hh => hcond (Or.inr (Or.inl hh))
            have hC : 5 ≤ (pyWords t).length := by
              by_contra hh
              exact hcond (Or.inr (Or.inr (by omega)))
            simp only [Except.ok.injEq, Option.some.injEq] at h
            exact ⟨q, t, a, h.symm, hA, hB, hC,
              orEmptyStrip_ok_trimmed _ _ hq, orEmptyStrip_ok_trimmed _ _ ht,
              orEmptyStrip_ok_trimmed _ _ ha⟩

theorem cleanTriples_ok_filterMap {α} (k1 k3 : String)
    (mk : String → String → String → α) (ss : List Json) (l : List α)
    (h : cleanTriples k1 k3 mk ss = .ok l) :
    l = ss.filterMap (keepTriple k1 k3 mk) := by
  induction ss generalizing l with
  | nil =>
    simp only [cleanTriples, Except.ok.injEq] at h
    simp [← h]
  | cons s rest ih =>
    simp only [cleanTriples] at h
    cases hps : processTriple k1 k3 mk s with
    | error e => rw [hps] at h; simp at h
    | ok o =>
      rw [hps] at h
      cases hr : cleanTriples k1 k3 mk rest with
      | error e => rw [hr] at h; simp at h
      | ok rest2 =>
        rw [hr] at h
        simp only [Except.ok.injEq] at h
        subst h
        rw [List.filterMap_cons]
        have hk : keepTriple k1 k3 mk s = o := by
          simp [keepTriple, hps, Except.toOption]
        rw [hk, ← ih rest2 hr]
        cases o <;> simp

theorem orEmptyStrip_safe_ok (o : Option Json) (h : safeVal o = true) :
    ∃ s, orEmptyStrip o = .ok s := by
  match o with
  | none => exact ⟨"", rfl⟩
  | some (.str s0) => exact ⟨pyStrip s0, rfl⟩
  | some .null | some (.bool _) | some (.num _) | some (.arr _) | some (.obj _) =>
    simp only [safeVal, isStrJson, Bool.or_false] at h
    refine ⟨"", ?_⟩
    simp only [orEmptyStrip]
    rw [if_neg]
    simp only [Bool.not_eq_true'] at h
    simp [h]

theorem processTriple_safe_ok {α} (k1 k3 : String)
    (mk : String → String → String → α) (s : Json)
    (h : tripleSafe k1 k3 s = true) :
    ∃ o, processTriple k1 k3 mk s = .ok o := by
  match s with
  | .null | .bool _ | .num _ | .str _ | .arr _ => exact ⟨none, rfl⟩
  | .obj fields =>
    simp only [tripleSafe, Bool.and_eq_true] at h
    obtain ⟨q, hq⟩ := orEmptyStrip_safe_ok _ h.1.1
    obtain ⟨t, ht⟩ := orEmptyStrip_safe_ok _ h.1.2
    obtain ⟨a, ha⟩ := orEmptyStrip_safe_ok _ h.2
    simp only [processTriple, hq, ht, ha]
    by_cases hcond : q = "" ∨ a = "" ∨ (pyWords t).length < 5
    · exact ⟨none, by rw [if_pos hcond]⟩
    · exact ⟨some (mk q t a), by rw [if_neg hcond]⟩

theorem cleanTriples_safe_ok {α} (k1 k3 : String)
    (mk : String → String → String → α) (ss : List Json)
    (h : ∀ s ∈ ss, tripleSafe k1 k3 s = true) :
    ∃ l, cleanTriples k1 k3 mk ss = .ok l := by
  induction ss with
  | nil => exact ⟨[], rfl⟩
  | cons s rest ih =>
    obtain ⟨o, ho⟩ := processTriple_safe_ok k1 k3 mk s (h s (by simp))
    obtain ⟨l2, hl2⟩ := ih (fun x hx => h x (by simp [hx]))
    exact ⟨o.toList ++ l2, by simp only [cleanTriples, ho, hl2]⟩

theorem parseResponse_ok_records {α} (key k1 k3 : String)
    (mk : String → String → String → α) (raw : String) (l : List α)
    (h : parseResponse key k1 k3 mk raw = .ok l) :
    (∀ r ∈ l, ∃ q t a, r = mk q t a ∧ q ≠ "" ∧ a ≠ "" ∧
      5 ≤ (pyWords t).length ∧ q = pyStrip q ∧ t = pyStrip t ∧ a = pyStrip a) ∧
    (∀ ss, firstRecords key (candidates raw) = some ss →
      l = ss.filterMap (keepTriple k1 k3 mk)) ∧
    (firstRecords key (candidates raw) = none → l = []) := by
  unfold parseResponse at h
  cases hfr : firstRecords key (candidates raw) with
  | none =>
    rw [hfr] at h
    dsimp only at h
    simp only [Except.ok.injEq] at h
    subst h
    refine ⟨by simp, ?_, ?_⟩
    · intro ss hss
      cases hss
    · intro _
      rfl
  | some ss =>
    rw [hfr] at h
    dsimp only at h
    have hfm := cleanTriples_ok_filterMap k1 k3 mk ss l h
    refine ⟨?_, ?_, ?_⟩
    · intro r hr
      rw [hfm] at hr
      obtain ⟨s, hs, hk⟩ := List.mem_filterMap.mp hr
      have hps : processTriple k1 k3 mk s = .ok (some r) := by
        unfold keepTriple at hk
        cases hpro : processTriple k1 k3 mk s with
        | error e => rw [hpro] at hk; simp [Except.toOption] at hk
        | ok o =>
          rw [hpro] at hk
          have ho2 : o = some r := by
            simpa [Except.toOption, Option.bind] using hk
          rw [ho2]
      exact processTriple_ok_some k1 k3 mk s r hps
    · intro ss2 hss2
      injection hss2 with he
      subst he
      exact hfm
    · intro hnone
      cases hnone

theorem parseResponse_no_records {α} (key k1 k3 : String)
    (mk : String → String → String → α) (raw : String)
    (h : firstRecords key (candidates raw) = none) :
    parseResponse key k1 k3 mk raw = .ok [] := by
  unfold parseResponse
  rw [h]

theorem parseResponse_safe_records {α} (key k1 k3 : String)
    (mk : String → String → String → α) (raw : String) (ss : List Json)
    (h : firstRecords key (candidates raw) = some ss)
    (hsafe : ∀ s ∈ ss, tripleSafe k1 k3 s = true) :
    ∃ l, parseResponse key k1 k3 mk raw = .ok l := by
  unfold parseResponse
  rw [h]
  exact cleanTriples_safe_ok k1 k3 mk ss hsafe

/-- C1 counterexample: the claim says the extractor never raises for any
malformed input, including JSON whose record elements have non-string
field values.  On `c1BadRaw` — well-formed JSON whose one record carries
`question: 123` — `(s.get("question") or "").strip()` evaluates
`123.strip()` and raises `AttributeError`: the result is an exception,
not a list. -/
theorem c1_extractor_never_raises_counterexample :
    parse_llm_response c1BadRaw = .error PyErr.attributeError := by decide

/-- C1 (amended): for both scene extractors, the fallback chain never
raises on malformed input — whenever no candidate decodes to a record
array, the result is the empty list, not an error — and the extractor
returns a list whenever every element of the extracted record array
carries only absent, falsy or string values in its three required fields.
(The unamended claim fails because a truthy non-string field value makes
`(x or "").strip()` raise `AttributeError`,
`c1_extractor_never_raises_counterexample`.) -/
theorem c1_extractor_total_amended :
    (∀ raw : String, firstRecords "samples" (candidates raw) = none →
      parse_llm_response raw = .ok []) ∧
    (∀ (raw : String) (ss : List Json),
      firstRecords "samples" (candidates raw) = some ss →
      (∀ s ∈ ss, tripleSafe "question" "answer" s = true) →
      ∃ l, parse_llm_response raw = .ok l) ∧
    (∀ raw : String, firstRecords "plans" (candidates raw) = none →
      parse_scene2_response raw = .ok []) ∧
    (∀ (raw : String) (ss : List Json),
      firstRecords "plans" (candidates raw) = some ss →
      (∀ s ∈ ss, tripleSafe "feature_title" "design_spec" s = true) →
      ∃ l, parse_scene2_response raw = .ok l) :=
  ⟨fun raw h => parseResponse_no_records _ _ _ QASample.mk raw h,
   fun raw ss h hsafe => parseResponse_safe_records _ _ _ QASample.mk raw ss h hsafe,
   fun raw h => parseResponse_no_records _ _ _ PlanSample.mk raw h,
   fun raw ss h hsafe => parseResponse_safe_records _ _ _ PlanSample.mk raw ss h hsafe⟩

/-- Witness for `c1_extractor_total_amended` at concrete inputs: prose
that decodes nowhere yields `.ok []`, and a record array whose field
values are falsy-or-string yields a list (no exception). -/
theorem c1_extractor_total_amended_witness :
    parse_llm_response "garbage" = .ok [] ∧
    (∃ l, parse_llm_response c1SafeRaw = .ok l) :=
  ⟨c1_extractor_total_amended.1 "garbage" rfl,
   c1_extractor_total_amended.2.1 c1SafeRaw
     [Json.obj [("question", Json.null), ("thinking_trace", Json.str "a b c d e"),
       ("answer", Json.num 0)]] rfl (by decide)⟩

set_option maxRecDepth 8192 in
/-- C2 counterexample: the claim says an element failing the field checks
is silently dropped without aborting the rest of the batch.  On
`c2BadRaw` the first element fails the checks (its `question` does not
decode to a string), yet instead of dropping it and returning the valid
second record, the extractor raises `AttributeError` and the whole batch
is lost. -/
theorem c2_extractor_drops_counterexample :
    parse_llm_response c2BadRaw = .error PyErr.attributeError := by decide

/-- C2 (amended): whenever either scene extractor returns a list (rather
than raising `AttributeError` on a truthy non-string field value,
`c2_extractor_drops_counterexample`), every record in it has its three
required fields equal to non-empty already-trimmed strings and a
reasoning (`thinking_trace`) of at least 5 whitespace-delimited tokens,
and the list is exactly the in-order `filterMap` of the extracted record
array — elements that are not mappings, or whose required fields are
absent, falsy or fail the checks, are dropped in place, and surviving
records keep their original order. -/
theorem c2_extractor_record_invariant_amended :
    (∀ (raw : String) (l : List QASample), parse_llm_response raw = .ok l →
      (∀ r ∈ l, r.question ≠ "" ∧ r.question = pyStrip r.question ∧
        r.answer ≠ "" ∧ r.answer = pyStrip r.answer ∧
        r.thinking_trace = pyStrip r.thinking_trace ∧
        5 ≤ (pyWords r.thinking_trace).length) ∧
      (∀ ss, firstRecords "samples" (candidates raw) = some ss →
        l = ss.filterMap (keepTriple "question" "answer" QASample.mk))) ∧
    (∀ (raw : String) (l : List PlanSample), parse_scene2_response raw = .ok l →
      (∀ r ∈ l, r.feature_title ≠ "" ∧ r.feature_title = pyStrip r.feature_title ∧
        r.design_spec ≠ "" ∧ r.design_spec = pyStrip r.design_spec ∧
        r.thinking_trace = pyStrip r.thinking_trace ∧
        5 ≤ (pyWords r.thinking_trace).length) ∧
      (∀ ss, firstRecords "plans" (candidates raw) = some ss →
        l = ss.filterMap (keepTriple "feature_title" "design_spec" PlanSample.mk))) := by
  constructor
  · intro raw l h
    have H := parseResponse_ok_records "samples" "question" "answer"
      QASample.mk raw l h
    refine ⟨?_, H.2.1⟩
    intro r hr
    obtain ⟨q, t, a, rfl, hq, ha, hw, hqs, hts, has⟩ := H.1 r hr
    exact ⟨hq, hqs, ha, has, hts, hw⟩
  · intro raw l h
    have H := parseResponse_ok_records "plans" "feature_title" "design_spec"
      PlanSample.mk raw l h
    refine ⟨?_, H.2.1⟩
    intro r hr
    obtain ⟨q, t, a, rfl, hq, ha, hw, hqs, hts, has⟩ := H.1 r hr
    exact ⟨hq, hqs, ha, has, hts, hw⟩

set_option maxRecDepth 8192 in
/-- Witness for `c2_extractor_record_invariant_amended` at a concrete
mixed batch: only the valid element survives, in place, and it satisfies
the record invariant. -/
theorem c2_extractor_record_invariant_amended_witness :
    parse_llm_response c2MixedRaw = .ok [QASample.mk "Q2" "a b c d e f" "A2"] ∧
    (QASample.mk "Q2" "a b c d e f" "A2").question ≠ "" ∧
    5 ≤ (pyWords (QASample.mk "Q2" "a b c d e f" "A2").thinking_trace).length := by
  have h0 : parse_llm_response c2MixedRaw
      = .ok [QASample.mk "Q2" "a b c d e f" "A2"] := by decide
  have H := (c2_extractor_record_invariant_amended.1 c2MixedRaw _ h0).1
    (QASample.mk "Q2" "a b c d e f" "A2") (by simp)
  exact ⟨h0, H.1, H.2.2.2.2.2⟩

set_option maxRecDepth 8192 in
/-- C10: the fence stripper removes all leading and trailing backticks
and then strips every leading character in `{'j','s','o','n'}` (not only
a literal `json` language tag — the non-tag `nnjjss` is eaten just as
well); hence on `c10Fenced`, whose payload begins with `'n'` right after
the opening fence, a payload character is deleted before parsing and the
extractor's result (one record, recovered because the mangled text
becomes a bare array) differs from parsing the true fenced payload
(which yields `[]`: the payload itself does not decode, and its brace
substring is a record object with no `samples` key). -/
theorem c10_fence_stripper_overstrips :
    stripCodeFence "```json\n\x7b\"a\": 1\x7d\n```" = "\x7b\"a\": 1\x7d\n" ∧
    stripCodeFence "```nnjjss[1]```" = "[1]" ∧
    c10Fenced = "```" ++ c10Payload ++ "```" ∧
    c10Payload.data.head? = some 'n' ∧
    stripCodeFence c10Fenced
      = "[\x7b\"question\":\"Q\",\"thinking_trace\":\"a b c d e\",\"answer\":\"A\"\x7d]" ∧
    parse_llm_response c10Fenced = .ok [QASample.mk "Q" "a b c d e" "A"] ∧
    parse_llm_response c10Payload = .ok [] ∧
    parse_llm_response c10Fenced ≠ parse_llm_response c10Payload := by
  refine ⟨by decide, by decide, by decide, by decide, by decide, by decide,
    by decide, by decide⟩

/-!
## Quality filter, reshaping and merge: claims C5-C9
-/

theorem s1Record_qaRawRecord (fp cn code q t a : String) :
    s1Record (qaRawRecord fp cn code q t a)
      = if pyStrip q = "" ∨ pyStrip a = "" ∨ (pyWords (pyStrip t)).length < 10
        then .ok none
        else .ok (some (mkScene1Sft (pyStrip q) (pyStrip code) (pyStrip t)
          (pyStrip a) (.str fp) (.str cn))) := rfl

theorem processTriple_qa_strings (q t a : String) :
    processTriple "question" "answer" QASample.mk
      (.obj [("question", .str q), ("thinking_trace", .str t), ("answer", .str a)])
      = if pyStrip q = "" ∨ pyStrip a = "" ∨ (pyWords (pyStrip t)).length < 5
        then .ok none
        else .ok (some (QASample.mk (pyStrip q) (pyStrip t) (pyStrip a))) := rfl

theorem keepTriple_qa_strings (q t a : String) :
    keepTriple "question" "answer" QASample.mk
      (.obj [("question", .str q), ("thinking_trace", .str t), ("answer", .str a)])
      = if pyStrip q = "" ∨ pyStrip a = "" ∨ (pyWords (pyStrip t)).length < 5
        then none
        else some (QASample.mk (pyStrip q) (pyStrip t) (pyStrip a)) := by
  unfold keepTriple
  rw [processTriple_qa_strings]
  by_cases h : pyStrip q = "" ∨ pyStrip a = "" ∨ (pyWords (pyStrip t)).length < 5
  · rw [if_pos h, if_pos h]
    rfl
  · rw [if_neg h, if_neg h]
    rfl

/-- C5: the QA-scene quality filter (`postprocess_scene1`), applied to a
persisted record as `generate_scene1` writes it, rejects the record
exactly when its question or answer is empty after trimming or its
reasoning has fewer than 10 whitespace tokens; every record the filter
keeps would also be kept by the extractor's own per-element check
(threshold 5, the same `keepTriple` the extractor's cleaning loop uses);
and a record with a 7-token reasoning is kept by the extractor check yet
rejected by the filter — the filter is strictly stricter, never the
reverse. -/
theorem c5_qa_filter_strictness :
    (∀ fp cn code q t a : String,
      (s1Record (qaRawRecord fp cn code q t a) = .ok none ↔
        (pyStrip q = "" ∨ pyStrip a = "" ∨ (pyWords (pyStrip t)).length < 10))) ∧
    (∀ fp cn code q t a : String, ∀ sft : Json,
      s1Record (qaRawRecord fp cn code q t a) = .ok (some sft) →
      (keepTriple "question" "answer" QASample.mk
        (.obj [("question", .str q), ("thinking_trace", .str t),
          ("answer", .str a)])).isSome = true) ∧
    ((keepTriple "question" "answer" QASample.mk
        (.obj [("question", .str "Q"),
          ("thinking_trace", .str "w1 w2 w3 w4 w5 w6 w7"),
          ("answer", .str "A")])).isSome = true ∧
      s1Record (qaRawRecord "f.py" "F" "x = 1" "Q" "w1 w2 w3 w4 w5 w6 w7" "A")
        = .ok none) := by
  refine ⟨?_, ?_, by decide, by rfl⟩
  · intro fp cn code q t a
    rw [s1Record_qaRawRecord]
    by_cases h : pyStrip q = "" ∨ pyStrip a = "" ∨ (pyWords (pyStrip t)).length < 10
    · rw [if_pos h]
      simp [h]
    · rw [if_neg h]
      simp [h]
  · intro fp cn code q t a sft hok
    rw [s1Record_qaRawRecord] at hok
    by_cases h : pyStrip q = "" ∨ pyStrip a = "" ∨ (pyWords (pyStrip t)).length < 10
    · rw [if_pos h] at hok
      cases hok
    · rw [keepTriple_qa_strings]
      have h5 : ¬(pyStrip q = "" ∨ pyStrip a = ""
          ∨ (pyWords (pyStrip t)).length < 5) := by
        intro hc
        rcases hc with h1 | h2 | h3
        · exact h (Or.inl h1)
        · exact h (Or.inr (Or.inl h2))
        · exact h (Or.inr (Or.inr (by omega)))
      rw [if_neg h5]
      rfl

/-- Witness for `c5_qa_filter_strictness` at concrete records: a persisted
record with empty answer is rejected, a fully valid record's survival
implies extractor acceptance. -/
theorem c5_qa_filter_strictness_witness :
    s1Record (qaRawRecord "f.py" "F" "x = 1" "Q" "w1 w2 w3 w4 w5 w6 w7" " ")
      = .ok none ∧
    (keepTriple "question" "answer" QASample.mk
      (.obj [("question", .str "Q"),
        ("thinking_trace", .str "w1 w2 w3 w4 w5 w6 w7 w8 w9 w10"),
        ("answer", .str "A")])).isSome = true :=
  ⟨(c5_qa_filter_strictness.1 "f.py" "F" "x = 1" "Q" "w1 w2 w3 w4 w5 w6 w7" " ").mpr
      (by decide),
   c5_qa_filter_strictness.2.1 "f.py" "F" "x = 1" "Q"
     "w1 w2 w3 w4 w5 w6 w7 w8 w9 w10" "A"
     (mkScene1Sft "Q" "x = 1" "w1 w2 w3 w4 w5 w6 w7 w8 w9 w10" "A"
       (.str "f.py") (.str "F")) rfl⟩

theorem s2Record_scene2Raw (files samples : List String)
    (title trace spec : String) :
    s2Record (scene2RawRecord files samples title trace spec) = .ok none := rfl

/-- C6: the claim says the design-scene filter, applied to the records the
scene-2 pipeline writes to its raw log, accepts exactly those whose
feature title and design spec are non-empty and whose reasoning has at
least 10 tokens.  In fact `postprocess_scene2` reads the keys
`instruction` / `design_output` / `project_skeleton`, while
`generate_scene2` writes `feature_title` / `design_spec` /
`project_files`: the looked-up `instruction` is always absent, so every
record the scene-2 pipeline writes — including ones with a non-empty
title, non-empty spec and arbitrarily long reasoning, which the claim
(and the writer's intent) says must be accepted — is rejected, and the
scene-2 SFT output is always empty. -/
theorem c6_design_filter_reads_wrong_keys :
    ∀ (files samples : List String) (title trace spec : String),
      s2Record (scene2RawRecord files samples title trace spec) = .ok none ∧
      collectRecords s2Record [scene2RawRecord files samples title trace spec]
        = .ok [] :=
  fun _ _ _ _ _ => ⟨rfl, rfl⟩

/-- C7 counterexample: the claim says the `input` field of the reshaped
SFT output is empty for every QA record.  A persisted QA record with
code chunk `"x = 1"` survives the filter and its reshaped `input` is the
code chunk, not the empty string. -/
theorem c7_qa_input_not_empty_counterexample :
    collectRecords s1Record [qaRawRecord "f.py" "F" "x = 1" "Q" tenTok "A"]
      = .ok [mkScene1Sft "Q" "x = 1" tenTok "A" (.str "f.py") (.str "F")] ∧
    getStrField (mkScene1Sft "Q" "x = 1" tenTok "A" (.str "f.py") (.str "F"))
      "input" = "x = 1" ∧
    "x = 1" ≠ "" :=
  ⟨rfl, rfl, by decide⟩

/-- C7 (amended): in the reshaped SFT output the `input` field is the
(trimmed) code chunk — not the empty string — for every QA record, and
QA `meta` carries the raw `file_path` / `class_name` provenance; every
design record that survives reshaping has an empty `meta` and an `input`
equal to `"Project structure:\n"` followed by its `project_skeleton`
field — but no record the scene-2 pipeline writes ever survives (the
reader's keys do not match the writer's, `s2Record_scene2Raw`), so the
design half holds vacuously for pipeline-written logs. -/
theorem c7_sft_shape_amended :
    (∀ fp cn code q t a : String, ∀ sft : Json,
      s1Record (qaRawRecord fp cn code q t a) = .ok (some sft) →
      lookupJson sft "input" = some (.str (pyStrip code)) ∧
      lookupJson sft "meta"
        = some (.obj [("file_path", .str fp), ("class_name", .str cn)])) ∧
    (∀ r sft : Json, s2Record r = .ok (some sft) →
      lookupJson sft "meta" = some (.obj []) ∧
      ∃ inst skeleton t design, sft = mkScene2Sft inst skeleton t design ∧
        lookupJson sft "input"
          = some (.str ("Project structure:\n" ++ jsonToPyStr skeleton))) ∧
    (∀ (files samples : List String) (title trace spec : String),
      s2Record (scene2RawRecord files samples title trace spec) = .ok none) := by
  refine ⟨?_, ?_, fun files samples title trace spec => s2Record_scene2Raw _ _ _ _ _⟩
  · intro fp cn code q t a sft hok
    rw [s1Record_qaRawRecord] at hok
    by_cases h : pyStrip q = "" ∨ pyStrip a = "" ∨ (pyWords (pyStrip t)).length < 10
    · rw [if_pos h] at hok
      cases hok
    · rw [if_neg h] at hok
      simp only [Except.ok.injEq, Option.some.injEq] at hok
      subst hok
      exact ⟨rfl, rfl⟩
  · intro r sft hok
    match r with
    | .null | .bool _ | .num _ | .str _ | .arr _ => cases hok
    | .obj fields =>
      simp only [s2Record] at hok
      cases h1 : pyGetStrDefaultStrip fields "instruction" with
      | error e => rw [h1] at hok; cases hok
      | ok inst =>
        rw [h1] at hok
        cases h2 : pyGetStrDefaultStrip fields "thinking_trace" with
        | error e => rw [h2] at hok; cases hok
        | ok t =>
          rw [h2] at hok
          dsimp only at hok
          by_cases hc : inst = "" ∨
              (pyWords t).length < 10 ∨
              pyTruthy ((lookupLast fields "design_output").getD (.obj [])) = false
          · rw [if_pos hc] at hok
            cases hok
          · rw [if_neg hc] at hok
            simp only [Except.ok.injEq, Option.some.injEq] at hok
            subst hok
            exact ⟨rfl, inst, (lookupLast fields "project_skeleton").getD (.str ""),
              t, (lookupLast fields "design_output").getD (.obj []), rfl, rfl⟩

/-- Witness for `c7_sft_shape_amended` at concrete records: a surviving
QA record carries its code chunk in `input` and provenance in `meta`; a
surviving (hand-keyed) design record carries an empty `meta`. -/
theorem c7_sft_shape_amended_witness :
    (lookupJson (mkScene1Sft "Q" "x = 1" tenTok "A" (.str "f.py") (.str "F"))
        "input" = some (.str (pyStrip "x = 1")) ∧
      lookupJson (mkScene1Sft "Q" "x = 1" tenTok "A" (.str "f.py") (.str "F"))
        "meta" = some (.obj [("file_path", .str "f.py"),
          ("class_name", .str "F")])) ∧
    lookupJson (mkScene2Sft "Add X" (.str "tree") tenTok (.num 1)) "meta"
      = some (.obj []) :=
  ⟨c7_sft_shape_amended.1 "f.py" "F" "x = 1" "Q" tenTok "A"
    (mkScene1Sft "Q" "x = 1" tenTok "A" (.str "f.py") (.str "F")) rfl,
   (c7_sft_shape_amended.2.1
     (.obj [("instruction", .str "Add X"), ("thinking_trace", .str tenTok),
       ("design_output", .num 1), ("project_skeleton", .str "tree")])
     (mkScene2Sft "Add X" (.str "tree") tenTok (.num 1)) rfl).1⟩

/-- C8: the combined dataset is exactly the reshaped QA record stream
followed by the reshaped design record stream, each in original emission
order; the merge performs no reordering and no deduplication — a line
occurring in both inputs occurs in the output once per occurrence, even
byte-for-byte duplicates — and it is a pure function of its two inputs,
so re-running it on identical inputs yields an identical output. -/
theorem c8_merge_is_concatenation :
    ∀ lines1 lines2 : List String,
      merge_sft lines1 lines2
        = (readJsonl lines1).map dumps ++ (readJsonl lines2).map dumps ∧
      (∀ s : String, (merge_sft lines1 lines2).count s
        = ((readJsonl lines1).map dumps).count s
          + ((readJsonl lines2).map dumps).count s) ∧
      (∀ lines1' lines2', lines1' = lines1 → lines2' = lines2 →
        merge_sft lines1' lines2' = merge_sft lines1 lines2) := by
  intro lines1 lines2
  refine ⟨List.map_append dumps _ _, ?_, ?_⟩
  · intro s
    rw [merge_sft, List.map_append, List.count_append]
  · intro lines1' lines2' h1 h2
    rw [h1, h2]

/-- Witness for `c8_merge_is_concatenation` at concrete input files
containing a byte-identical record in both inputs and one malformed
line. -/
theorem c8_merge_is_concatenation_witness :
    merge_sft ["\x7b\"a\": 1\x7d", "bad"] ["\x7b\"a\": 1\x7d"]
      = (readJsonl ["\x7b\"a\": 1\x7d", "bad"]).map dumps
        ++ (readJsonl ["\x7b\"a\": 1\x7d"]).map dumps ∧
    merge_sft ["\x7b\"a\": 1\x7d", "bad"] ["\x7b\"a\": 1\x7d"]
      = merge_sft ["\x7b\"a\": 1\x7d", "bad"] ["\x7b\"a\": 1\x7d"] :=
  ⟨(c8_merge_is_concatenation ["\x7b\"a\": 1\x7d", "bad"] ["\x7b\"a\": 1\x7d"]).1,
   (c8_merge_is_concatenation ["\x7b\"a\": 1\x7d", "bad"] ["\x7b\"a\": 1\x7d"]).2.2
     _ _ rfl rfl⟩

/-- C9: during postprocessing, a line that is blank after stripping or
fails to decode contributes nothing and does not disturb the remaining
lines; and a raw log consisting only of such lines still postprocesses
successfully to an empty record list (an empty but successfully written
SFT file), for both scenes — not an error. -/
theorem c9_malformed_lines_skipped :
    (∀ (pre post : List String) (bad : String),
      (pyStrip bad = "" ∨ (jsonParse (pyStrip bad)).isNone = true) →
      readJsonl (pre ++ bad :: post) = readJsonl (pre ++ post)) ∧
    (∀ lines : List String,
      (∀ b ∈ lines, pyStrip b = "" ∨ (jsonParse (pyStrip b)).isNone = true) →
      readJsonl lines = [] ∧ postprocess_scene1 lines = .ok [] ∧
        postprocess_scene2 lines = .ok []) := by
  have hnone : ∀ bad : String,
      (pyStrip bad = "" ∨ (jsonParse (pyStrip bad)).isNone = true) →
      (let t := pyStrip bad; if t = "" then none else jsonParse t)
        = (none : Option Json) := by
    intro bad hb
    rcases hb with h | h
    · simp [h]
    · by_cases he : pyStrip bad = ""
      · simp [he]
      · simp only [if_neg he]
        exact Option.isNone_iff_eq_none.mp h
  constructor
  · intro pre post bad hb
    unfold readJsonl
    rw [List.filterMap_append, List.filterMap_append, List.filterMap_cons,
      hnone bad hb]
  · intro lines hlines
    have hr : readJsonl lines = [] := by
      unfold readJsonl
      rw [List.filterMap_eq_nil_iff]
      intro b hb
      exact hnone b (hlines b hb)
    refine ⟨hr, ?_, ?_⟩
    · unfold postprocess_scene1
      rw [hr]
      rfl
    · unfold postprocess_scene2
      rw [hr]
      rfl

/-- Witness for `c9_malformed_lines_skipped`: a log of one blank line,
one prose line and one truncated-JSON line yields empty but successful
output, and dropping the corrupt line from a mixed log leaves the rest
intact. -/
theorem c9_malformed_lines_skipped_witness :
    readJsonl ["\x7b\"a\": 1\x7d", "\x7bbroken", "\x7b\"b\": 2\x7d"]
      = readJsonl ["\x7b\"a\": 1\x7d", "\x7b\"b\": 2\x7d"] ∧
    postprocess_scene1 ["", "not json", "\x7bbroken"] = .ok [] :=
  ⟨c9_malformed_lines_skipped.1 ["\x7b\"a\": 1\x7d"] ["\x7b\"b\": 2\x7d"]
     "\x7bbroken" (by decide),
   (c9_malformed_lines_skipped.2 ["", "not json", "\x7bbroken"] (by decide)).2.1⟩
